import Mathlib

/-!
Verification of `xmlrunner/result.py` (class `XMLTestResult`), the test-run
listener that adapts unittest lifecycle callbacks into calls against an XML
context builder, against its natural-language design specification.

The listener code is embedded shallowly from `src/xmlrunner/result.py`.
The XML context builder (`xmlrunner/builder.py`) is not part of the provided
sources; its operations (`begin_context`, `context_tag`, `increment_counter`,
`append`, `append_cdata_section`, `end_context`, `finish`) are modelled from
the specification's description of the builder contract; every such
definition carries a doc comment starting with "Modelled from the spec:".

Machine conventions:
  - Python exceptions raised while handling a lifecycle callback are embedded
    as `Option`: a step returning `none` means the call signals an error.
  - Captured stdout/stderr buffering (provided by `unittest.TestResult` when
    `buffer = True`) is embedded as two string buffers in the listener state;
    the superclass's `stopTest` resetting them is part of the `stopTest` step.
  - Builder interactions are recorded both as a trace of deep-embedded calls
    (`BCall`) and as their effect on the builder's context stack.
-/

set_option autoImplicit false

namespace XmlRunner

/-! ## The XML document tree and builder contexts -/

/-- A finished piece of XML document structure: either a closed element
(tag, name attribute, counters, ordered children) or a leaf record
(tag, optional CDATA body, ordered attribute list). -/
inductive XTree where
  | elem (tag : String) (name : String) (counters : List (String × Nat))
      (children : List XTree)
  | leaf (tag : String) (cdata : Option String) (attrs : List (String × String))

/-- Modelled from the spec: a node under construction on the builder's
context stack: tag, human-readable name attribute, running counters and
ordered children accumulated so far. -/
structure Context where
  tag : String
  name : String
  counters : List (String × Nat)
  children : List XTree

/-- Modelled from the spec: closing a context converts it into an immutable
child record. -/
def Context.toTree (c : Context) : XTree :=
  XTree.elem c.tag c.name c.counters c.children

/-- Deep embedding of the builder's public mutation calls, used to record the
exact sequence of builder interactions the listener issues. -/
inductive BCall where
  | begin_context (tag : String) (name : String)
  | end_context
  | increment_counter (name : String)
  | append (tag : String) (cdata : Option String) (attrs : List (String × String))
  | append_cdata_section (tag : String) (text : String)
  | finish
  deriving DecidableEq

/-- Modelled from the spec: increment counter `n` by 1, creating it at 0
first if absent (a fresh counter is appended in insertion order). -/
def bumpCounter : List (String × Nat) → String → List (String × Nat)
  | [], n => [(n, 1)]
  | (k, v) :: rest, n =>
    if k = n then (k, v + 1) :: rest else (k, v) :: bumpCounter rest n

/-- Value of counter `n` in a counter list; 0 when absent (serialization
emits absent counters with value 0, e.g. a context with no failures still
emits a zero `failures` attribute). -/
def counterValue : List (String × Nat) → String → Nat
  | [], _ => 0
  | (k, v) :: rest, n => if k = n then v else counterValue rest n

/-- Modelled from the spec: effect of one builder call on the context stack
(innermost/open context first).  `none` embeds the builder signalling a
usage error (e.g. stack underflow on `end_context`, or appending with no
open context). `finish` does not mutate the stack; its result is read off
separately by `finishResult`. -/
def applyCall (st : List Context) : BCall → Option (List Context)
  | BCall.begin_context tag name => some (⟨tag, name, [], []⟩ :: st)
  | BCall.end_context =>
    match st with
    | c :: p :: rest =>
      some ({ p with children := p.children ++ [c.toTree] } :: rest)
    | _ => none
  | BCall.increment_counter n =>
    some (st.map (fun c => { c with counters := bumpCounter c.counters n }))
  | BCall.append tag cdata attrs =>
    match st with
    | c :: rest =>
      some ({ c with children := c.children ++ [XTree.leaf tag cdata attrs] } :: rest)
    | [] => none
  | BCall.append_cdata_section tag text =>
    match st with
    | c :: rest =>
      some ({ c with children := c.children ++ [XTree.leaf tag (some text) []] } :: rest)
    | [] => none
  | BCall.finish => some st

/-- Apply a sequence of builder calls left to right, stopping at the first
usage error. -/
def applyCalls : List Context → List BCall → Option (List Context)
  | st, [] => some st
  | st, c :: cs =>
    match applyCall st c with
    | some st2 => applyCalls st2 cs
    | none => none

/-- Modelled from the spec: `context_tag` returns the tag of the currently
open (top-of-stack) context, or the empty sentinel when the stack is
empty. -/
def context_tag (st : List Context) : String :=
  match st with
  | c :: _ => c.tag
  | [] => ""

/-- Modelled from the spec: `finish` requires the stack to hold exactly the
root context; it closes it (if still open) and yields the finished document
tree.  Any other stack shape is a malformed-stack usage error. -/
def finishResult (st : List Context) : Option XTree :=
  match st with
  | [c] => some c.toTree
  | _ => none

/-! ## Python string helpers used by the listener -/

/-- Split a character list at every newline character, `str.split`-style
(the separators are consumed; `n + 1` parts for `n` separators). -/
def splitOnNl : List Char → List (List Char)
  | [] => [[]]
  | c :: cs =>
    let r := splitOnNl cs
    if c = '\n' then [] :: r
    else
      match r with
      | h :: t => (c :: h) :: t
      | [] => [[c]]

/-- Drop the final part when it is empty (a trailing line terminator yields
no extra empty line in `str.splitlines`). -/
def dropLastEmptyLine (ls : List (List Char)) : List (List Char) :=
  if ls.getLast? = some [] then ls.dropLast else ls

/-- Embedding of Python `str.splitlines` restricted to `\n` line boundaries
(the only boundary relevant here): `"".splitlines()` is `[]`, a trailing
newline produces no trailing empty line. -/
def splitlines (s : String) : List String :=
  (dropLastEmptyLine (splitOnNl s.data)).map (fun l => String.mk l)

/-- One Unicode left curly bracket, written by code point to keep literal
braces out of string literals. -/
def lcurly : Char := Char.ofNat 123

/-- One Unicode right curly bracket, written by code point. -/
def rcurly : Char := Char.ofNat 125

/-- Substitute every occurrence of the replacement field `\x7b0\x7d` in a
character list by `arg`. -/
def substAux (arg : String) : List Char → List Char
  | [] => []
  | [a] => [a]
  | [a, b] => [a, b]
  | a :: b :: c :: rest =>
    if a = lcurly ∧ b = '0' ∧ c = rcurly then arg.data ++ substAux arg rest
    else a :: substAux arg (b :: c :: rest)

/-- Embedding of Python `template.format(arg)` for templates whose only
replacement fields are occurrences of `\x7b0\x7d`. -/
def pyFormat1 (template arg : String) : String :=
  String.mk (substAux arg template.data)

/-- Python truthiness of an optional string (`None` and the empty string are
falsy). -/
def pyTruthyOpt : Option String → Bool
  | none => false
  | some s => decide (s ≠ "")

/-! ## Listener data model -/

/-- The exception payload handed to `addError` / `addFailure`: the Python
triple `(exctype, value, tb)` together with the string the external
traceback-formatting collaborator (`_exc_info_to_string`) produces for it.
`typeName` is `exctype.__name__` and `valueStr` is `str(value)`. -/
structure ExcInfo where
  typeName : String
  valueStr : String
  formatted : String

/-- The facts about a test instance the listener consumes: its declaring
class's module and class name (for `unittest.util.strclass`), its
`shortDescription()` result and its `_testMethodName`. -/
structure TestInfo where
  moduleName : String
  className : String
  shortDescription : Option String
  testMethodName : String

/-- Where the report goes: `out_dir` is either a directory path string or an
already-open writable stream (`type(stream) is str` dispatch in
`_generate_report`). -/
inductive OutTarget where
  | path (p : String)
  | stream

/-- The observable effect of `_generate_report`: either a write of the
finished document to a freshly opened file (with the directory created
first when absent), or a direct write to the pre-opened stream. -/
inductive WriteEffect where
  | toFile (filename : String) (createdDir : Bool) (doc : XTree)
  | toStream (doc : XTree)

/-- `os.sep` on the POSIX platforms the program targets. -/
def osSep : String := "/"

/-- The listener's mutable state: the builder's context stack, the
`_last_suite` grouping key, the stdout/stderr capture buffers provided by
`unittest.TestResult` buffering, the `buffer` flag, and the output
configuration (`out_dir`, computed `out_suffix`). -/
structure LState where
  stack : List Context
  last_suite : Option String
  stdoutBuf : String
  stderrBuf : String
  buffer : Bool
  out_dir : OutTarget
  out_suffix : String

/-! ## The listener, embedded from `src/xmlrunner/result.py` -/

/-- `XMLTestResult.__init__`: ignores `stream`/`descriptions`/`verbosity`
for report purposes, creates a fresh builder, sets `_last_suite = None`,
stores `out_dir`, unconditionally sets `buffer = True`, and computes
`out_suffix` (template formatted with the timestamp when the template is
truthy, otherwise the raw timestamp).  `ts` is the value returned by the
external `time.strftime` collaborator in `_timestamp`. -/
def XMLTestResult_init {α β γ : Type} (_stream : α) (_descriptions : β)
    (_verbosity : γ) (out_dir : OutTarget) (out_suffix : Option String)
    (ts : String) : LState :=
  { stack := []
    last_suite := none
    stdoutBuf := ""
    stderrBuf := ""
    buffer := true
    out_dir := out_dir
    out_suffix :=
      match out_suffix with
      | some t => if t ≠ "" then pyFormat1 t ts else ts
      | none => ts }

/-- `XMLTestResult._test_class_name`: `unittest.util.strclass` formats the
test's class as `"<module>.<class_name>"`. -/
def test_class_name (t : TestInfo) : String :=
  t.moduleName ++ "." ++ t.className

/-- `XMLTestResult._get_description`: the first line of the test's
docstring when truthy, else the test method name. -/
def get_description (t : TestInfo) : String :=
  match t.shortDescription with
  | some d => if d ≠ "" then d else t.testMethodName
  | none => t.testMethodName

/-- `XMLTestResult._current_suite_finished`: whether `test` is part of a new
test suite (`self._last_suite != self._test_class_name(test)`; a `None`
`_last_suite` differs from every string). -/
def current_suite_finished (s : LState) (t : TestInfo) : Bool :=
  decide (s.last_suite ≠ some (test_class_name t))

/-- The builder calls `XMLTestResult._start_new_suite` issues: `end_context`
for the previous suite when `_last_suite` is truthy, then `begin_context`
for the new `testsuite` keyed by the grouping key. -/
def startNewSuiteCalls (s : LState) (t : TestInfo) : List BCall :=
  (if pyTruthyOpt s.last_suite then [BCall.end_context] else []) ++
    [BCall.begin_context "testsuite" (test_class_name t)]

/-- Apply builder calls to a listener state (only the stack changes). -/
def runCalls (s : LState) (calls : List BCall) : Option LState :=
  (applyCalls s.stack calls).map (fun stk => { s with stack := stk })

/-- `XMLTestResult.startTestRun`: the superclass call touches no builder
state; then `begin_context('testsuites', 'TestSuites')` opens the root. -/
def startTestRunStep (s : LState) : Option (LState × List BCall) :=
  let calls := [BCall.begin_context "testsuites" "TestSuites"]
  (runCalls s calls).map (fun s2 => (s2, calls))

/-- `XMLTestResult.startTest`: open a new `testsuite` context when the open
context is still the root (`context_tag() == 'testsuites'`) or the grouping
key changed (`_current_suite_finished`), updating `_last_suite`; then always
open a `testcase` context named by the test's description. -/
def startTestStep (s : LState) (t : TestInfo) : Option (LState × List BCall) :=
  let newSuite : Bool :=
    decide (context_tag s.stack = "testsuites") || current_suite_finished s t
  let calls :=
    (if newSuite then startNewSuiteCalls s t else []) ++
      [BCall.begin_context "testcase" (get_description t)]
  let last2 := if newSuite then some (test_class_name t) else s.last_suite
  (runCalls s calls).map (fun s2 => ({ s2 with last_suite := last2 }, calls))

/-- `XMLTestResult.stopTest`: read both capture buffers, then let the
superclass reset them (`buffer = True`), then append `system-out` /
`system-err` CDATA leaves for the non-empty captures, increment the `tests`
counter and close the `testcase` context. -/
def stopTestStep (s : LState) : Option (LState × List BCall) :=
  let out_data := s.stdoutBuf
  let err_data := s.stderrBuf
  let calls :=
    (if out_data ≠ "" then [BCall.append_cdata_section "system-out" out_data] else []) ++
      (if err_data ≠ "" then [BCall.append_cdata_section "system-err" err_data] else []) ++
      [BCall.increment_counter "tests", BCall.end_context]
  (applyCalls s.stack calls).map
    (fun stk => ({ s with stack := stk, stdoutBuf := "", stderrBuf := "" }, calls))

/-- `XMLTestResult._append_error_data`: the builder call it issues.  The
attribute map starts as a single `message` entry fixed to
"Unexpected success"; when an exception payload is present the `type`
attribute is added, the message is overwritten in place by the first line of
`str(value)` (an `IndexError`, embedded as `none`, when `str(value)` has no
lines) and the CDATA body is the formatted traceback. -/
def appendErrorDataCalls (error_type : String) (err : Option ExcInfo) :
    Option (List BCall) :=
  match err with
  | none => some [BCall.append error_type none [("message", "Unexpected success")]]
  | some e =>
    match splitlines e.valueStr with
    | [] => none
    | fl :: _ =>
      some [BCall.append error_type (some e.formatted)
        [("message", fl), ("type", e.typeName)]]

/-- `XMLTestResult.addSkip`: increment `skipped`, append a `skipped` leaf
with the reason as `message` attribute and no CDATA body. -/
def addSkipStep (s : LState) (reason : String) : Option (LState × List BCall) :=
  let calls := [BCall.increment_counter "skipped",
    BCall.append "skipped" none [("message", reason)]]
  (runCalls s calls).map (fun s2 => (s2, calls))

/-- `XMLTestResult.addError`: increment `errors`, then `_append_error_data`
with tag `error`. -/
def addErrorStep (s : LState) (e : ExcInfo) : Option (LState × List BCall) :=
  match appendErrorDataCalls "error" (some e) with
  | none => none
  | some ac =>
    let calls := BCall.increment_counter "errors" :: ac
    (runCalls s calls).map (fun s2 => (s2, calls))

/-- `XMLTestResult.addFailure` via `_add_generic_failure`: increment
`failures`, then `_append_error_data` with tag `failure`. -/
def addFailureStep (s : LState) (e : ExcInfo) : Option (LState × List BCall) :=
  match appendErrorDataCalls "failure" (some e) with
  | none => none
  | some ac =>
    let calls := BCall.increment_counter "failures" :: ac
    (runCalls s calls).map (fun s2 => (s2, calls))

/-- `XMLTestResult.addUnexpectedSuccess` via `_add_generic_failure` with no
exception payload. -/
def addUnexpectedSuccessStep (s : LState) : Option (LState × List BCall) :=
  match appendErrorDataCalls "failure" none with
  | none => none
  | some ac =>
    let calls := BCall.increment_counter "failures" :: ac
    (runCalls s calls).map (fun s2 => (s2, calls))

/-- Text written to sys.stdout during a test accumulates in the capture
buffer (`buffer = True` redirection by the unittest superclass). -/
def writeOutStep (s : LState) (txt : String) : LState :=
  { s with stdoutBuf := s.stdoutBuf ++ txt }

/-- Text written to sys.stderr during a test accumulates in the capture
buffer. -/
def writeErrStep (s : LState) (txt : String) : LState :=
  { s with stderrBuf := s.stderrBuf ++ txt }

/-- The file name `_generate_report` builds for a directory target:
`'\x7b0\x7d\x7b1\x7dTESTS-TestSuites-\x7b3\x7d.xml'.format(dir, os.sep,
'suite', out_suffix)`. -/
def report_filename (dir : String) (suffix : String) : String :=
  dir ++ osSep ++ "TESTS-TestSuites-" ++ suffix ++ ".xml"

/-- `XMLTestResult._generate_report`: when `out_dir` is a string, write the
finished document to `TESTS-TestSuites-<out_suffix>.xml` inside it, creating
the directory first when it does not exist; otherwise write directly to the
pre-opened stream.  `dirExists` is the `os.path.exists` collaborator's
answer; `none` embeds the builder's `finish` failing on a malformed stack. -/
def generate_report (s : LState) (dirExists : Bool) : Option WriteEffect :=
  match finishResult s.stack with
  | none => none
  | some doc =>
    match s.out_dir with
    | OutTarget.path p =>
      some (WriteEffect.toFile (report_filename p s.out_suffix) (!dirExists) doc)
    | OutTarget.stream => some (WriteEffect.toStream doc)

/-- The builder calls `XMLTestResult.stopTestRun` issues: the superclass
call and `_generate_report` issue no `begin_context`/`end_context`; the only
builder interaction is the single `finish`. -/
def stopTestRunCalls : List BCall := [BCall.finish]

/-- `XMLTestResult.stopTestRun`: generate and write the report. -/
def stopTestRunStep (s : LState) (dirExists : Bool) :
    Option (WriteEffect × List BCall) :=
  (generate_report s dirExists).map (fun w => (w, stopTestRunCalls))

/-! ## Structured runs: the unittest driver's calling sequence -/

/-- Events the driver may deliver between `startTest` and `stopTest`. -/
inductive BodyEvent where
  | writeOut (txt : String)
  | writeErr (txt : String)
  | skip (reason : String)
  | error (e : ExcInfo)
  | failure (e : ExcInfo)
  | unexpectedSuccess

/-- Dispatch one mid-test event. -/
def bodyStep (s : LState) : BodyEvent → Option (LState × List BCall)
  | BodyEvent.writeOut txt => some (writeOutStep s txt, [])
  | BodyEvent.writeErr txt => some (writeErrStep s txt, [])
  | BodyEvent.skip reason => addSkipStep s reason
  | BodyEvent.error e => addErrorStep s e
  | BodyEvent.failure e => addFailureStep s e
  | BodyEvent.unexpectedSuccess => addUnexpectedSuccessStep s

/-- Run a list of mid-test events, accumulating the builder-call trace. -/
def execBody (s : LState) : List BodyEvent → Option (LState × List BCall)
  | [] => some (s, [])
  | ev :: evs =>
    match bodyStep s ev with
    | none => none
    | some (s1, c1) =>
      match execBody s1 evs with
      | none => none
      | some (s2, c2) => some (s2, c1 ++ c2)

/-- One test as the driver executes it: `startTest`, the mid-test events,
`stopTest`. -/
structure TestExec where
  test : TestInfo
  body : List BodyEvent

/-- Execute one test against the listener. -/
def execTest (s : LState) (te : TestExec) : Option (LState × List BCall) :=
  match startTestStep s te.test with
  | none => none
  | some (s1, c1) =>
    match execBody s1 te.body with
    | none => none
    | some (s2, c2) =>
      match stopTestStep s2 with
      | none => none
      | some (s3, c3) => some (s3, c1 ++ c2 ++ c3)

/-- Execute a sequence of tests. -/
def execTests (s : LState) : List TestExec → Option (LState × List BCall)
  | [] => some (s, [])
  | te :: rest =>
    match execTest s te with
    | none => none
    | some (s1, c1) =>
      match execTests s1 rest with
      | none => none
      | some (s2, c2) => some (s2, c1 ++ c2)

/-- A full run up to (not including) `stopTestRun`: construct the listener,
`startTestRun`, then the given tests. -/
def execRunFromInit (out_dir : OutTarget) (out_suffix : Option String)
    (ts : String) (tests : List TestExec) : Option (LState × List BCall) :=
  match startTestRunStep (XMLTestResult_init () () () out_dir out_suffix ts) with
  | none => none
  | some (s1, c1) =>
    match execTests s1 tests with
    | none => none
    | some (s2, c2) => some (s2, c1 ++ c2)

/-- A complete run: lifecycle events followed by `stopTestRun`, yielding the
write effect and the complete builder-call trace. -/
def fullRun (out_dir : OutTarget) (out_suffix : Option String) (ts : String)
    (tests : List TestExec) (dirExists : Bool) :
    Option (WriteEffect × List BCall) :=
  match execRunFromInit out_dir out_suffix ts tests with
  | none => none
  | some (s, tr) =>
    match stopTestRunStep s dirExists with
    | none => none
    | some (w, c2) => some (w, tr ++ c2)

/-! ## Basic lemmas about the helpers -/

theorem data_empty : ("" : String).data = [] := rfl

theorem stringMk_data (s : String) : String.mk s.data = s := by
  cases s
  rfl

theorem stringMk_append (a b : List Char) :
    String.mk (a ++ b) = String.mk a ++ String.mk b := rfl

theorem data_ne_nil_of_ne_empty {s : String} (h : s ≠ "") : s.data ≠ [] := by
  intro hd
  apply h
  cases s with
  | mk d =>
    simp only at hd
    rw [hd]

theorem test_class_name_ne_empty (t : TestInfo) : test_class_name t ≠ "" := by
  intro h
  have h2 := congrArg String.data h
  simp [test_class_name, String.data_append, data_empty] at h2

theorem counterValue_bumpCounter (cs : List (String × Nat)) (n m : String) :
    counterValue (bumpCounter cs n) m =
      if m = n then counterValue cs n + 1 else counterValue cs m := by
  induction cs with
  | nil =>
    by_cases h : m = n
    · simp [bumpCounter, counterValue, h]
    · simp [bumpCounter, counterValue, h, Ne.symm h]
  | cons p rest ih =>
    obtain ⟨k, v⟩ := p
    by_cases hk : k = n
    · subst hk
      by_cases hm : m = k
      · simp [bumpCounter, counterValue, hm]
      · simp [bumpCounter, counterValue, hm, Ne.symm hm]
    · by_cases hm : m = k
      · have hmn : ¬ m = n := fun hh => hk (hm.symm.trans hh)
        simp [bumpCounter, counterValue, hk, hm.symm, hmn]
      · have hkm : ¬ k = m := fun hh => hm hh.symm
        simp [bumpCounter, counterValue, hk, hkm, ih]

theorem splitOnNl_ne_nil (l : List Char) : splitOnNl l ≠ [] := by
  cases l with
  | nil => simp [splitOnNl]
  | cons c cs =>
    simp only [splitOnNl]
    by_cases h : c = '\n'
    · simp [h]
    · simp only [h, if_false]
      cases hr : splitOnNl cs <;> simp

theorem splitOnNl_eq_singleton {l : List Char} {x : List Char}
    (h : splitOnNl l = [x]) : x = l := by
  induction l generalizing x with
  | nil =>
    simp [splitOnNl] at h
    exact h
  | cons c cs ih =>
    simp only [splitOnNl] at h
    by_cases hc : c = '\n'
    · rw [if_pos hc] at h
      have := splitOnNl_ne_nil cs
      simp at h
      exact absurd h.2 this
    · rw [if_neg hc] at h
      cases hr : splitOnNl cs with
      | nil => exact absurd hr (splitOnNl_ne_nil cs)
      | cons hd tl =>
        rw [hr] at h
        simp at h
        obtain ⟨hx, htl⟩ := h
        subst htl
        have hcs : hd = cs := ih hr
        subst hcs
        exact hx.symm

theorem splitlines_ne_nil {s : String} (h : s ≠ "") : splitlines s ≠ [] := by
  have hdata := data_ne_nil_of_ne_empty h
  unfold splitlines dropLastEmptyLine
  cases hp : splitOnNl s.data with
  | nil => exact absurd hp (splitOnNl_ne_nil s.data)
  | cons hd tl =>
    cases tl with
    | nil =>
      have : hd = s.data := splitOnNl_eq_singleton hp
      subst this
      simp [List.getLast?, hdata]
    | cons t0 t1 =>
      by_cases hlast : (hd :: t0 :: t1).getLast? = some []
      · rw [if_pos hlast]
        have hlen : ((hd :: t0 :: t1).dropLast).length = t1.length + 1 := by
          simp [List.length_dropLast]
        intro hmap
        have := congrArg List.length hmap
        simp [hlen] at this
      · rw [if_neg hlast]
        simp

theorem splitlines_cons_of_ne {s : String} (h : s ≠ "") :
    ∃ fl rest, splitlines s = fl :: rest := by
  cases hs : splitlines s with
  | nil => exact absurd hs (splitlines_ne_nil h)
  | cons fl rest => exact ⟨fl, rest, rfl⟩

theorem substAux_cons_of_ne (arg : String) (a : Char) (l : List Char)
    (h : a ≠ lcurly) : substAux arg (a :: l) = a :: substAux arg l := by
  match l with
  | [] => rfl
  | [b] => rfl
  | b :: c :: rest => simp [substAux, h]

theorem substAux_of_no_lcurly (arg : String) (l : List Char)
    (h : ∀ c ∈ l, c ≠ lcurly) : substAux arg l = l := by
  induction l with
  | nil => rfl
  | cons a t ih =>
    rw [substAux_cons_of_ne arg a t (h a (by simp))]
    rw [ih (fun c hc => h c (by simp [hc]))]

theorem substAux_append_of_no_lcurly (arg : String) (pre l : List Char)
    (h : ∀ c ∈ pre, c ≠ lcurly) :
    substAux arg (pre ++ l) = pre ++ substAux arg l := by
  induction pre with
  | nil => simp
  | cons a t ih =>
    rw [List.cons_append, substAux_cons_of_ne arg a _ (h a (by simp))]
    rw [ih (fun c hc => h c (by simp [hc]))]
    simp

theorem substAux_placeholder (arg : String) (rest : List Char) :
    substAux arg (lcurly :: '0' :: rcurly :: rest) =
      arg.data ++ substAux arg rest := by
  simp [substAux]

/-- Formatting a template whose data is literally `pre ++ "\x7b0\x7d" ++ post`
with `pre`/`post` free of left curly brackets substitutes the placeholder. -/
theorem pyFormat1_single_placeholder (tpl pre post ts : String)
    (hpre : ∀ c ∈ pre.data, c ≠ lcurly) (hpost : ∀ c ∈ post.data, c ≠ lcurly)
    (htpl : tpl.data = pre.data ++ lcurly :: '0' :: rcurly :: post.data) :
    pyFormat1 tpl ts = pre ++ ts ++ post := by
  unfold pyFormat1
  rw [htpl, substAux_append_of_no_lcurly _ _ _ hpre, substAux_placeholder,
    substAux_of_no_lcurly _ _ hpost]
  rw [stringMk_append, stringMk_append, stringMk_data, stringMk_data,
    stringMk_data, String.append_assoc]

/-! ## Reachable-state invariants of the listener -/

/-- Shape of the listener state at the points where the driver may call
`startTest`: either no test has started yet (only the root context is open
and `_last_suite` is `None`), or some test has finished (the root and the
suite of the most recent test are open, keyed by `_last_suite`). -/
def Inv (s : LState) : Prop :=
  (s.last_suite = none ∧ ∃ root, s.stack = [root] ∧ root.tag = "testsuites") ∨
  (∃ n suite root, s.last_suite = some n ∧ n ≠ "" ∧ s.stack = [suite, root] ∧
    suite.tag = "testsuite" ∧ suite.name = n ∧ root.tag = "testsuites")

/-- Shape of the listener state between `startTest` and `stopTest`: a
`testcase` context atop the suite and root contexts. -/
def MidInv (s : LState) : Prop :=
  ∃ n c suite root, s.last_suite = some n ∧ n ≠ "" ∧
    s.stack = [c, suite, root] ∧ suite.tag = "testsuite" ∧ suite.name = n ∧
    root.tag = "testsuites"

/-- `startTest` from any valid pre-test state succeeds, issues exactly the
builder calls the specification describes (opening a new suite exactly when
no suite is open yet or the grouping key changed, closing the previous suite
first, then opening the described `testcase`), and leaves a valid mid-test
state. -/
theorem startTestStep_spec (s : LState) (t : TestInfo) (h : Inv s) :
    ∃ s2, startTestStep s t =
      some (s2,
        (if s.last_suite = none ∨ s.last_suite ≠ some (test_class_name t) then
          (if s.last_suite ≠ none then [BCall.end_context] else []) ++
            [BCall.begin_context "testsuite" (test_class_name t)]
        else []) ++ [BCall.begin_context "testcase" (get_description t)]) ∧
      MidInv s2 := by
  rcases h with ⟨hnone, root, hstack, hrt⟩ |
    ⟨n, suite, root, hls, hne, hstack, hsut, hsun, hrt⟩
  · refine ⟨?_, ?_, ?_⟩
    · exact { (({ s with stack :=
        [⟨"testcase", get_description t, [], []⟩,
         ⟨"testsuite", test_class_name t, [], []⟩, root] }) : LState) with
        last_suite := some (test_class_name t) }
    · simp [startTestStep, hstack, hnone, context_tag, hrt,
        current_suite_finished, startNewSuiteCalls, pyTruthyOpt, runCalls,
        applyCalls, applyCall]
    · exact ⟨test_class_name t, _, _, root, rfl, test_class_name_ne_empty t,
        rfl, rfl, rfl, hrt⟩
  · by_cases hcls : n = test_class_name t
    · refine ⟨?_, ?_, ?_⟩
      · exact { s with stack :=
          [⟨"testcase", get_description t, [], []⟩, suite, root] }
      · simp [startTestStep, hstack, hls, context_tag, hsut, hcls,
          current_suite_finished, runCalls, applyCalls, applyCall]
      · exact ⟨n, _, suite, root, hls, hne, rfl, hsut, hsun, hrt⟩
    · refine ⟨?_, ?_, ?_⟩
      · exact { (({ s with stack :=
          [⟨"testcase", get_description t, [], []⟩,
           ⟨"testsuite", test_class_name t, [], []⟩,
           { root with children := root.children ++ [suite.toTree] }] }) :
            LState) with last_suite := some (test_class_name t) }
      · simp [startTestStep, hstack, hls, context_tag, hsut, hcls,
          current_suite_finished, startNewSuiteCalls, pyTruthyOpt, hne,
          runCalls, applyCalls, applyCall]
      · exact ⟨test_class_name t, _, _, _, rfl, test_class_name_ne_empty t,
        rfl, rfl, rfl, by simp [hrt]⟩

/-- Every mid-test event that does not signal an error preserves the
mid-test state shape (writes only touch the capture buffers, report events
only touch counters and children of the open contexts). -/
theorem bodyStep_mid {s : LState} {ev : BodyEvent} {s2 : LState}
    {cs : List BCall} (h : MidInv s) (hstep : bodyStep s ev = some (s2, cs)) :
    MidInv s2 := by
  obtain ⟨n, c, su, ro, hls, hne, hstack, hsut, hsun, hrt⟩ := h
  cases ev with
  | writeOut txt =>
    simp only [bodyStep, writeOutStep, Option.some.injEq, Prod.mk.injEq]
      at hstep
    obtain ⟨rfl, rfl⟩ := hstep
    exact ⟨n, c, su, ro, hls, hne, hstack, hsut, hsun, hrt⟩
  | writeErr txt =>
    simp only [bodyStep, writeErrStep, Option.some.injEq, Prod.mk.injEq]
      at hstep
    obtain ⟨rfl, rfl⟩ := hstep
    exact ⟨n, c, su, ro, hls, hne, hstack, hsut, hsun, hrt⟩
  | skip reason =>
    simp only [bodyStep, addSkipStep, runCalls, hstack, applyCalls, applyCall,
      List.map, Option.map_some', Option.some.injEq, Prod.mk.injEq] at hstep
    obtain ⟨rfl, rfl⟩ := hstep
    exact ⟨n, _, _, _, hls, hne, rfl, hsut, hsun, hrt⟩
  | error e =>
    cases hsp : splitlines e.valueStr with
    | nil => simp [bodyStep, addErrorStep, appendErrorDataCalls, hsp] at hstep
    | cons fl rest =>
      simp only [bodyStep, addErrorStep, appendErrorDataCalls, hsp, runCalls,
        hstack, applyCalls, applyCall, List.map, Option.map_some',
        Option.some.injEq, Prod.mk.injEq] at hstep
      obtain ⟨rfl, rfl⟩ := hstep
      exact ⟨n, _, _, _, hls, hne, rfl, hsut, hsun, hrt⟩
  | failure e =>
    cases hsp : splitlines e.valueStr with
    | nil => simp [bodyStep, addFailureStep, appendErrorDataCalls, hsp] at hstep
    | cons fl rest =>
      simp only [bodyStep, addFailureStep, appendErrorDataCalls, hsp, runCalls,
        hstack, applyCalls, applyCall, List.map, Option.map_some',
        Option.some.injEq, Prod.mk.injEq] at hstep
      obtain ⟨rfl, rfl⟩ := hstep
      exact ⟨n, _, _, _, hls, hne, rfl, hsut, hsun, hrt⟩
  | unexpectedSuccess =>
    simp only [bodyStep, addUnexpectedSuccessStep, appendErrorDataCalls,
      runCalls, hstack, applyCalls, applyCall, List.map, Option.map_some',
      Option.some.injEq, Prod.mk.injEq] at hstep
    obtain ⟨rfl, rfl⟩ := hstep
    exact ⟨n, _, _, _, hls, hne, rfl, hsut, hsun, hrt⟩

/-- Mid-test event sequences preserve the mid-test state shape. -/
theorem execBody_mid {evs : List BodyEvent} {s s2 : LState} {cs : List BCall}
    (h : MidInv s) (hstep : execBody s evs = some (s2, cs)) : MidInv s2 := by
  induction evs generalizing s cs with
  | nil =>
    simp only [execBody, Option.some.injEq, Prod.mk.injEq] at hstep
    obtain ⟨rfl, rfl⟩ := hstep
    exact h
  | cons ev evs ih =>
    cases h1 : bodyStep s ev with
    | none => simp [execBody, h1] at hstep
    | some p =>
      obtain ⟨s1, c1⟩ := p
      cases h2 : execBody s1 evs with
      | none => simp [execBody, h1, h2] at hstep
      | some q =>
        obtain ⟨sq, cq⟩ := q
        simp only [execBody, h1, h2, Option.some.injEq, Prod.mk.injEq] at hstep
        obtain ⟨rfl, rfl⟩ := hstep
        exact ih (bodyStep_mid h h1) h2

/-- `stopTest` from any valid mid-test state succeeds and returns to a
valid pre-test state with the same suite key and cleared buffers. -/
theorem stopTestStep_inv {s : LState} (h : MidInv s) :
    ∃ s2 cs, stopTestStep s = some (s2, cs) ∧ Inv s2 ∧
      s2.last_suite = s.last_suite := by
  obtain ⟨n, c, su, ro, hls, hne, hstack, hsut, hsun, hrt⟩ := h
  by_cases ho : s.stdoutBuf = ""
  · by_cases he : s.stderrBuf = ""
    · refine ⟨{ s with
          stack := [{ su with
            counters := bumpCounter su.counters "tests"
            children := su.children ++
              [Context.toTree { c with
                counters := bumpCounter c.counters "tests" }] },
            { ro with counters := bumpCounter ro.counters "tests" }]
          stdoutBuf := ""
          stderrBuf := "" },
        [BCall.increment_counter "tests", BCall.end_context], ?_, ?_, ?_⟩
      · simp [stopTestStep, hstack, ho, he, applyCalls, applyCall]
      · exact Or.inr ⟨n, _, _, hls, hne, rfl, hsut, hsun, hrt⟩
      · rfl
    · refine ⟨{ s with
          stack := [{ su with
            counters := bumpCounter su.counters "tests"
            children := su.children ++
              [Context.toTree { c with
                counters := bumpCounter c.counters "tests"
                children := c.children ++
                  [XTree.leaf "system-err" (some s.stderrBuf) []] }] },
            { ro with counters := bumpCounter ro.counters "tests" }]
          stdoutBuf := ""
          stderrBuf := "" },
        [BCall.append_cdata_section "system-err" s.stderrBuf,
          BCall.increment_counter "tests", BCall.end_context], ?_, ?_, ?_⟩
      · simp [stopTestStep, hstack, ho, he, applyCalls, applyCall]
      · exact Or.inr ⟨n, _, _, hls, hne, rfl, hsut, hsun, hrt⟩
      · rfl
  · by_cases he : s.stderrBuf = ""
    · refine ⟨{ s with
          stack := [{ su with
            counters := bumpCounter su.counters "tests"
            children := su.children ++
              [Context.toTree { c with
                counters := bumpCounter c.counters "tests"
                children := c.children ++
                  [XTree.leaf "system-out" (some s.stdoutBuf) []] }] },
            { ro with counters := bumpCounter ro.counters "tests" }]
          stdoutBuf := ""
          stderrBuf := "" },
        [BCall.append_cdata_section "system-out" s.stdoutBuf,
          BCall.increment_counter "tests", BCall.end_context], ?_, ?_, ?_⟩
      · simp [stopTestStep, hstack, ho, he, applyCalls, applyCall]
      · exact Or.inr ⟨n, _, _, hls, hne, rfl, hsut, hsun, hrt⟩
      · rfl
    · refine ⟨{ s with
          stack := [{ su with
            counters := bumpCounter su.counters "tests"
            children := su.children ++
              [Context.toTree { c with
                counters := bumpCounter c.counters "tests"
                children := (c.children ++
                  [XTree.leaf "system-out" (some s.stdoutBuf) []]) ++
                  [XTree.leaf "system-err" (some s.stderrBuf) []] }] },
            { ro with counters := bumpCounter ro.counters "tests" }]
          stdoutBuf := ""
          stderrBuf := "" },
        [BCall.append_cdata_section "system-out" s.stdoutBuf,
          BCall.append_cdata_section "system-err" s.stderrBuf,
          BCall.increment_counter "tests", BCall.end_context], ?_, ?_, ?_⟩
      · simp [stopTestStep, hstack, ho, he, applyCalls, applyCall]
      · exact Or.inr ⟨n, _, _, hls, hne, rfl, hsut, hsun, hrt⟩
      · rfl

/-- Executing one complete test from a valid pre-test state yields a valid
pre-test state. -/
theorem execTest_inv {s s2 : LState} {te : TestExec} {cs : List BCall}
    (h : Inv s) (hstep : execTest s te = some (s2, cs)) : Inv s2 := by
  obtain ⟨s1, heq, hmid⟩ := startTestStep_spec s te.test h
  cases hb : execBody s1 te.body with
  | none => simp [execTest, heq, hb] at hstep
  | some p =>
    obtain ⟨sb, cb⟩ := p
    have hmid2 := execBody_mid hmid hb
    obtain ⟨s3, cs3, hstop, hinv3, hlast3⟩ := stopTestStep_inv hmid2
    simp only [execTest, heq, hb, hstop, Option.some.injEq, Prod.mk.injEq]
      at hstep
    obtain ⟨rfl, rfl⟩ := hstep
    exact hinv3

/-- Executing a sequence of complete tests preserves the pre-test state
shape. -/
theorem execTests_inv {tests : List TestExec} {s s2 : LState} {cs : List BCall}
    (h : Inv s) (hstep : execTests s tests = some (s2, cs)) : Inv s2 := by
  induction tests generalizing s cs with
  | nil =>
    simp only [execTests, Option.some.injEq, Prod.mk.injEq] at hstep
    obtain ⟨rfl, rfl⟩ := hstep
    exact h
  | cons te rest ih =>
    cases h1 : execTest s te with
    | none => simp [execTests, h1] at hstep
    | some p =>
      obtain ⟨s1, c1⟩ := p
      cases h2 : execTests s1 rest with
      | none => simp [execTests, h1, h2] at hstep
      | some q =>
        obtain ⟨sq, cq⟩ := q
        simp only [execTests, h1, h2, Option.some.injEq, Prod.mk.injEq] at hstep
        obtain ⟨rfl, rfl⟩ := hstep
        exact ih (execTest_inv h h1) h2

/-- `startTestRun` on a fresh listener opens exactly the root `testsuites`
context. -/
theorem startTestRunStep_init (d : OutTarget) (sfx : Option String)
    (ts : String) :
    startTestRunStep (XMLTestResult_init () () () d sfx ts) =
      some ({ XMLTestResult_init () () () d sfx ts with
        stack := [⟨"testsuites", "TestSuites", [], []⟩] },
        [BCall.begin_context "testsuites" "TestSuites"]) := rfl

/-- Every state reached by a run prefix made of complete tests is a valid
pre-test state. -/
theorem execRunFromInit_inv {d : OutTarget} {sfx : Option String} {ts : String}
    {tests : List TestExec} {s : LState} {tr : List BCall}
    (h : execRunFromInit d sfx ts tests = some (s, tr)) : Inv s := by
  cases he : execTests ({ XMLTestResult_init () () () d sfx ts with
      stack := [⟨"testsuites", "TestSuites", [], []⟩] }) tests with
  | none =>
    simp [execRunFromInit, startTestRunStep_init, he] at h
  | some q =>
    obtain ⟨s2, c2⟩ := q
    simp only [execRunFromInit, startTestRunStep_init, he, Option.some.injEq,
      Prod.mk.injEq] at h
    obtain ⟨rfl, rfl⟩ := h
    exact execTests_inv (Or.inl ⟨rfl, _, rfl, rfl⟩) he

/-! ## Claim theorems -/

/-- Children of a finished element node. -/
def XTree.kids : XTree → List XTree
  | XTree.elem _ _ _ ch => ch
  | XTree.leaf _ _ _ => []

/-- Counter attribute value of a finished element node (0 when absent,
matching the serialization rule that absent counters are emitted as 0). -/
def XTree.counterOf : XTree → String → Nat
  | XTree.elem _ _ cs _, n => counterValue cs n
  | XTree.leaf _ _ _, _ => 0

/-- Claim C1: the claim states that for every run in which at least one test
started, `stopTestRun` issues an `end_context` for the still-open
`testsuite` context before invoking the builder's finish/serialization.
The code does not: in a run of one completed test, the only builder call
`stopTestRun` issues is `finish`, the `testsuite` context (and the root)
are still open at that point (stack depth 2), and the spec-modelled
`finish` — which requires the stack to hold exactly the root context —
fails, so report generation signals an error instead of serializing. -/
theorem stopTestRun_leaves_suite_open :
    (execRunFromInit OutTarget.stream none "20240101T000000"
        [⟨⟨"pkg", "FooTest", none, "test_one"⟩, []⟩]).map
      (fun pr => pr.1.stack.length) = some 2 ∧
    stopTestRunCalls = [BCall.finish] ∧
    BCall.end_context ∉ stopTestRunCalls ∧
    (execRunFromInit OutTarget.stream none "20240101T000000"
        [⟨⟨"pkg", "FooTest", none, "test_one"⟩, []⟩]).bind
      (fun pr => (stopTestRunStep pr.1 true).map Prod.fst) = none :=
  ⟨rfl, rfl, by decide, rfl⟩

/-- Claim C2: the claim states that recording an error or failure whose
exception's string representation is empty succeeds and never signals an
error.  The code instead computes `str(value).splitlines()[0]`, and
`"".splitlines()` is the empty list, so the indexing raises `IndexError`:
`addError` (and hence the whole run) aborts on an empty-message payload. -/
theorem addError_empty_message_signals_error :
    splitlines "" = [] ∧
    (∀ s : LState, addErrorStep s ⟨"AssertionError", "", "tb"⟩ = none) ∧
    (∀ s : LState, addFailureStep s ⟨"AssertionError", "", "tb"⟩ = none) ∧
    execRunFromInit OutTarget.stream none "20240101T000000"
      [⟨⟨"pkg", "FooTest", none, "test_one"⟩,
        [BodyEvent.error ⟨"AssertionError", "", "tb"⟩]⟩] = none :=
  ⟨rfl, fun _ => rfl, fun _ => rfl, rfl⟩

/-- Claim C3: at every state reachable by a run prefix of complete tests,
`startTest` opens a new `testsuite` context exactly when no suite is open
yet (`_last_suite` is still `None`) or the incoming test's module-qualified
class name differs from the last opened suite's key — closing the previous
suite context first, if any — and then always opens a `testcase` context
named by the first line of the test's docstring, falling back to its method
name.  In particular two consecutive tests of the same class add no
`testsuite` call, sharing the open suite context. -/
theorem startTest_opens_suite_iff_new_key (d : OutTarget) (sfx : Option String)
    (ts : String) (tests : List TestExec) (s : LState) (tr : List BCall)
    (t : TestInfo) (h : execRunFromInit d sfx ts tests = some (s, tr)) :
    ∃ s2, startTestStep s t =
      some (s2,
        (if s.last_suite = none ∨ s.last_suite ≠ some (test_class_name t) then
          (if s.last_suite ≠ none then [BCall.end_context] else []) ++
            [BCall.begin_context "testsuite" (test_class_name t)]
        else []) ++ [BCall.begin_context "testcase" (get_description t)]) := by
  obtain ⟨s2, heq, _⟩ := startTestStep_spec s t (execRunFromInit_inv h)
  exact ⟨s2, heq⟩

/-- Witness for C3 at a concrete input: after a run prefix containing one
test of class `pkg.FooTest`, starting a second test of the same class opens
no new suite context, only the described `testcase` context. -/
theorem startTest_opens_suite_iff_new_key_witness :
    ∃ s2, startTestStep
      ({ stack := [⟨"testsuite", "pkg.FooTest", [("tests", 1)],
          [XTree.elem "testcase" "test_one" [("tests", 1)] []]⟩,
          ⟨"testsuites", "TestSuites", [("tests", 1)], []⟩]
         last_suite := some "pkg.FooTest"
         stdoutBuf := ""
         stderrBuf := ""
         buffer := true
         out_dir := OutTarget.stream
         out_suffix := "20240101T000000" } : LState)
      ⟨"pkg", "FooTest", none, "test_two"⟩ =
      some (s2,
        (if (some "pkg.FooTest" : Option String) = none ∨
            (some "pkg.FooTest" : Option String) ≠
              some (test_class_name ⟨"pkg", "FooTest", none, "test_two"⟩) then
          (if (some "pkg.FooTest" : Option String) ≠ none then
            [BCall.end_context] else []) ++
            [BCall.begin_context "testsuite"
              (test_class_name ⟨"pkg", "FooTest", none, "test_two"⟩)]
        else []) ++
        [BCall.begin_context "testcase"
          (get_description ⟨"pkg", "FooTest", none, "test_two"⟩)]) :=
  startTest_opens_suite_iff_new_key OutTarget.stream none "20240101T000000"
    [⟨⟨"pkg", "FooTest", none, "test_one"⟩, []⟩] _ _
    ⟨"pkg", "FooTest", none, "test_two"⟩ rfl

/-- Claim C8: a run in which zero tests start still closes and serializes
the root context: the complete builder-call trace is exactly the opening of
the root `testsuites` context followed by `finish`, and the finished
document is an empty `testsuites` element with no children whose `tests`
counter serializes as 0. -/
theorem empty_run_serializes_empty_root :
    fullRun OutTarget.stream none "20240101T000000" [] true =
      some (WriteEffect.toStream (XTree.elem "testsuites" "TestSuites" [] []),
        [BCall.begin_context "testsuites" "TestSuites", BCall.finish]) ∧
    XTree.counterOf (XTree.elem "testsuites" "TestSuites" [] []) "tests" = 0 ∧
    XTree.kids (XTree.elem "testsuites" "TestSuites" [] []) = [] :=
  ⟨rfl, rfl, rfl⟩

/-- Claim C9: `addSkip` with reason `reason` increments exactly the
`skipped` counter by 1 (on every open context, the top shown here
explicitly) and appends to the open `testcase` context a leaf tagged
`skipped` whose only attribute is `message` set to the reason, with no
CDATA body. -/
theorem addSkip_behavior (s : LState) (c : Context) (rest : List Context)
    (reason : String) (hs : s.stack = c :: rest) :
    addSkipStep s reason = some
      ({ s with stack :=
          { c with
            counters := bumpCounter c.counters "skipped"
            children := c.children ++
              [XTree.leaf "skipped" none [("message", reason)]] } ::
          rest.map (fun x =>
            { x with counters := bumpCounter x.counters "skipped" }) },
        [BCall.increment_counter "skipped",
         BCall.append "skipped" none [("message", reason)]]) ∧
    (∀ m, counterValue (bumpCounter c.counters "skipped") m =
      if m = "skipped" then counterValue c.counters "skipped" + 1
      else counterValue c.counters m) := by
  constructor
  · simp [addSkipStep, runCalls, hs, applyCalls, applyCall]
  · exact fun m => counterValue_bumpCounter c.counters "skipped" m

/-- Witness for C9 at a concrete input. -/
theorem addSkip_behavior_witness :
    addSkipStep
      (⟨[⟨"testcase", "test_one", [], []⟩], some "pkg.FooTest", "", "",
        true, OutTarget.stream, "20240101T000000"⟩ : LState) "not ready" = some
      ((⟨[⟨"testcase", "test_one", bumpCounter [] "skipped",
          [XTree.leaf "skipped" none [("message", "not ready")]]⟩],
        some "pkg.FooTest", "", "", true, OutTarget.stream,
        "20240101T000000"⟩ : LState),
        [BCall.increment_counter "skipped",
         BCall.append "skipped" none [("message", "not ready")]]) ∧
    (∀ m, counterValue (bumpCounter ([] : List (String × Nat)) "skipped") m =
      if m = "skipped" then counterValue [] "skipped" + 1
      else counterValue [] m) :=
  addSkip_behavior _ ⟨"testcase", "test_one", [], []⟩ [] "not ready" rfl

/-- Claim C5: `addUnexpectedSuccess` behaves exactly as a generic failure
with no exception payload: it increments exactly the `failures` counter by
1 and appends a `failure` leaf whose only attribute is the constant message
"Unexpected success", with no `type` attribute and no CDATA body. -/
theorem addUnexpectedSuccess_behavior (s : LState) (c : Context)
    (rest : List Context) (hs : s.stack = c :: rest) :
    addUnexpectedSuccessStep s = some
      ({ s with stack :=
          { c with
            counters := bumpCounter c.counters "failures"
            children := c.children ++
              [XTree.leaf "failure" none
                [("message", "Unexpected success")]] } ::
          rest.map (fun x =>
            { x with counters := bumpCounter x.counters "failures" }) },
        [BCall.increment_counter "failures",
         BCall.append "failure" none [("message", "Unexpected success")]]) ∧
    (∀ m, counterValue (bumpCounter c.counters "failures") m =
      if m = "failures" then counterValue c.counters "failures" + 1
      else counterValue c.counters m) := by
  constructor
  · simp [addUnexpectedSuccessStep, appendErrorDataCalls, runCalls, hs,
      applyCalls, applyCall]
  · exact fun m => counterValue_bumpCounter c.counters "failures" m

/-- Witness for C5 at a concrete input. -/
theorem addUnexpectedSuccess_behavior_witness :
    addUnexpectedSuccessStep
      (⟨[⟨"testcase", "test_one", [], []⟩], some "pkg.FooTest", "", "",
        true, OutTarget.stream, "20240101T000000"⟩ : LState) = some
      ((⟨[⟨"testcase", "test_one", bumpCounter [] "failures",
          [XTree.leaf "failure" none [("message", "Unexpected success")]]⟩],
        some "pkg.FooTest", "", "", true, OutTarget.stream,
        "20240101T000000"⟩ : LState),
        [BCall.increment_counter "failures",
         BCall.append "failure" none [("message", "Unexpected success")]]) ∧
    (∀ m, counterValue (bumpCounter ([] : List (String × Nat)) "failures") m =
      if m = "failures" then counterValue [] "failures" + 1
      else counterValue [] m) :=
  addUnexpectedSuccess_behavior _ ⟨"testcase", "test_one", [], []⟩ [] rfl

/-- Claim C4: for an error (resp. failure) report whose exception payload
has a non-empty string representation, `addError` (resp. `addFailure`)
increments exactly the `errors` (resp. `failures`) counter by 1 and appends
a leaf tagged `error` (resp. `failure`) whose `message` attribute is the
first line of `str(value)`, whose `type` attribute is the exception class
name, and whose CDATA body is the traceback-formatting collaborator's
output. -/
theorem addError_addFailure_behavior (s : LState) (c : Context)
    (rest : List Context) (e : ExcInfo) (hs : s.stack = c :: rest)
    (hv : e.valueStr ≠ "") :
    ∃ fl ls, splitlines e.valueStr = fl :: ls ∧
      addErrorStep s e = some
        ({ s with stack :=
            { c with
              counters := bumpCounter c.counters "errors"
              children := c.children ++
                [XTree.leaf "error" (some e.formatted)
                  [("message", fl), ("type", e.typeName)]] } ::
            rest.map (fun x =>
              { x with counters := bumpCounter x.counters "errors" }) },
          [BCall.increment_counter "errors",
           BCall.append "error" (some e.formatted)
             [("message", fl), ("type", e.typeName)]]) ∧
      addFailureStep s e = some
        ({ s with stack :=
            { c with
              counters := bumpCounter c.counters "failures"
              children := c.children ++
                [XTree.leaf "failure" (some e.formatted)
                  [("message", fl), ("type", e.typeName)]] } ::
            rest.map (fun x =>
              { x with counters := bumpCounter x.counters "failures" }) },
          [BCall.increment_counter "failures",
           BCall.append "failure" (some e.formatted)
             [("message", fl), ("type", e.typeName)]]) ∧
      (∀ m, counterValue (bumpCounter c.counters "errors") m =
        if m = "errors" then counterValue c.counters "errors" + 1
        else counterValue c.counters m) ∧
      (∀ m, counterValue (bumpCounter c.counters "failures") m =
        if m = "failures" then counterValue c.counters "failures" + 1
        else counterValue c.counters m) := by
  obtain ⟨fl, ls, hsp⟩ := splitlines_cons_of_ne hv
  refine ⟨fl, ls, hsp, ?_, ?_, ?_, ?_⟩
  · simp [addErrorStep, appendErrorDataCalls, hsp, runCalls, hs, applyCalls,
      applyCall]
  · simp [addFailureStep, appendErrorDataCalls, hsp, runCalls, hs, applyCalls,
      applyCall]
  · exact fun m => counterValue_bumpCounter c.counters "errors" m
  · exact fun m => counterValue_bumpCounter c.counters "failures" m

/-- Witness for C4 at a concrete input: exception payload with
`str(value) = "boom\nbar"` and type `AssertionError`. -/
theorem addError_addFailure_behavior_witness :
    ∃ fl ls, splitlines "boom\nbar" = fl :: ls ∧
      addErrorStep
        (⟨[⟨"testcase", "test_one", [], []⟩], some "pkg.FooTest", "", "",
          true, OutTarget.stream, "20240101T000000"⟩ : LState)
        ⟨"AssertionError", "boom\nbar", "Traceback (most recent call last)"⟩ =
        some
        ((⟨[⟨"testcase", "test_one", bumpCounter [] "errors",
            [XTree.leaf "error" (some "Traceback (most recent call last)")
              [("message", fl), ("type", "AssertionError")]]⟩],
          some "pkg.FooTest", "", "", true, OutTarget.stream,
          "20240101T000000"⟩ : LState),
          [BCall.increment_counter "errors",
           BCall.append "error" (some "Traceback (most recent call last)")
             [("message", fl), ("type", "AssertionError")]]) ∧
      addFailureStep
        (⟨[⟨"testcase", "test_one", [], []⟩], some "pkg.FooTest", "", "",
          true, OutTarget.stream, "20240101T000000"⟩ : LState)
        ⟨"AssertionError", "boom\nbar", "Traceback (most recent call last)"⟩ =
        some
        ((⟨[⟨"testcase", "test_one", bumpCounter [] "failures",
            [XTree.leaf "failure" (some "Traceback (most recent call last)")
              [("message", fl), ("type", "AssertionError")]]⟩],
          some "pkg.FooTest", "", "", true, OutTarget.stream,
          "20240101T000000"⟩ : LState),
          [BCall.increment_counter "failures",
           BCall.append "failure" (some "Traceback (most recent call last)")
             [("message", fl), ("type", "AssertionError")]]) ∧
      (∀ m, counterValue (bumpCounter ([] : List (String × Nat)) "errors") m =
        if m = "errors" then counterValue [] "errors" + 1
        else counterValue [] m) ∧
      (∀ m, counterValue (bumpCounter ([] : List (String × Nat)) "failures") m =
        if m = "failures" then counterValue [] "failures" + 1
        else counterValue [] m) :=
  addError_addFailure_behavior
    (⟨[⟨"testcase", "test_one", [], []⟩], some "pkg.FooTest", "", "",
      true, OutTarget.stream, "20240101T000000"⟩ : LState)
    ⟨"testcase", "test_one", [], []⟩ []
    ⟨"AssertionError", "boom\nbar", "Traceback (most recent call last)"⟩
    rfl (by decide)

/-- Claim C6: `stopTest` appends a `system-out` CDATA leaf holding the
captured stdout if and only if that capture is non-empty, then a
`system-err` CDATA leaf holding captured stderr if and only if non-empty,
then increments the `tests` counter on every open context (testcase, suite
and root — the rollup), and then closes the `testcase` context, moving it
into the suite's children. -/
theorem stopTest_behavior (s : LState) (c su ro : Context)
    (hs : s.stack = [c, su, ro]) :
    stopTestStep s = some
      ({ s with
          stack := [{ su with
            counters := bumpCounter su.counters "tests"
            children := su.children ++
              [Context.toTree { c with
                counters := bumpCounter c.counters "tests"
                children := c.children ++
                  (if s.stdoutBuf ≠ "" then
                    [XTree.leaf "system-out" (some s.stdoutBuf) []] else []) ++
                  (if s.stderrBuf ≠ "" then
                    [XTree.leaf "system-err" (some s.stderrBuf) []]
                   else []) }] },
            { ro with counters := bumpCounter ro.counters "tests" }]
          stdoutBuf := ""
          stderrBuf := "" },
        (if s.stdoutBuf ≠ "" then
          [BCall.append_cdata_section "system-out" s.stdoutBuf] else []) ++
        (if s.stderrBuf ≠ "" then
          [BCall.append_cdata_section "system-err" s.stderrBuf] else []) ++
        [BCall.increment_counter "tests", BCall.end_context]) ∧
    (∀ m, counterValue (bumpCounter su.counters "tests") m =
      if m = "tests" then counterValue su.counters "tests" + 1
      else counterValue su.counters m) ∧
    (∀ m, counterValue (bumpCounter ro.counters "tests") m =
      if m = "tests" then counterValue ro.counters "tests" + 1
      else counterValue ro.counters m) := by
  refine ⟨?_, fun m => counterValue_bumpCounter su.counters "tests" m,
    fun m => counterValue_bumpCounter ro.counters "tests" m⟩
  by_cases ho : s.stdoutBuf = "" <;> by_cases he : s.stderrBuf = "" <;>
    simp [stopTestStep, hs, ho, he, applyCalls, applyCall]

/-- Witness for C6 at a concrete input with non-empty captured stdout and
empty captured stderr. -/
theorem stopTest_behavior_witness :
    stopTestStep
      (⟨[⟨"testcase", "test_one", [], []⟩,
         ⟨"testsuite", "pkg.FooTest", [], []⟩,
         ⟨"testsuites", "TestSuites", [], []⟩],
        some "pkg.FooTest", "hello\n", "", true, OutTarget.stream,
        "20240101T000000"⟩ : LState) = some
      ((⟨[⟨"testsuite", "pkg.FooTest", bumpCounter [] "tests",
          [Context.toTree ⟨"testcase", "test_one", bumpCounter [] "tests",
            [] ++ (if ("hello\n" : String) ≠ "" then
              [XTree.leaf "system-out" (some "hello\n") []] else []) ++
            (if ("" : String) ≠ "" then
              [XTree.leaf "system-err" (some "") []] else [])⟩]⟩,
         ⟨"testsuites", "TestSuites", bumpCounter [] "tests", []⟩],
        some "pkg.FooTest", "", "", true, OutTarget.stream,
        "20240101T000000"⟩ : LState),
        (if ("hello\n" : String) ≠ "" then
          [BCall.append_cdata_section "system-out" "hello\n"] else []) ++
        (if ("" : String) ≠ "" then
          [BCall.append_cdata_section "system-err" ""] else []) ++
        [BCall.increment_counter "tests", BCall.end_context]) ∧
    (∀ m, counterValue (bumpCounter ([] : List (String × Nat)) "tests") m =
      if m = "tests" then counterValue [] "tests" + 1
      else counterValue [] m) ∧
    (∀ m, counterValue (bumpCounter ([] : List (String × Nat)) "tests") m =
      if m = "tests" then counterValue [] "tests" + 1
      else counterValue [] m) :=
  stopTest_behavior _ ⟨"testcase", "test_one", [], []⟩
    ⟨"testsuite", "pkg.FooTest", [], []⟩
    ⟨"testsuites", "TestSuites", [], []⟩ rfl

/-- Concatenation of all stdout text written during a list of mid-test
events. -/
def outConcat : List BodyEvent → String
  | [] => ""
  | BodyEvent.writeOut t :: evs => t ++ outConcat evs
  | _ :: evs => outConcat evs

/-- Concatenation of all stderr text written during a list of mid-test
events. -/
def errConcat : List BodyEvent → String
  | [] => ""
  | BodyEvent.writeErr t :: evs => t ++ errConcat evs
  | _ :: evs => errConcat evs

theorem string_empty_append (s : String) : "" ++ s = s := by
  cases s with
  | mk d => exact congrArg String.mk (List.nil_append d)

theorem string_append_empty (s : String) : s ++ "" = s := by
  cases s with
  | mk d => exact congrArg String.mk (List.append_nil d)

theorem string_append_assoc (a b c : String) : a ++ b ++ c = a ++ (b ++ c) := by
  cases a with
  | mk x =>
    cases b with
    | mk y =>
      cases c with
      | mk z => exact congrArg String.mk (List.append_assoc x y z)

/-- One mid-test event extends the capture buffers by exactly its writes. -/
theorem bodyStep_buffers {s : LState} {ev : BodyEvent} {s1 : LState}
    {cs : List BCall} (h : bodyStep s ev = some (s1, cs)) :
    s1.stdoutBuf = s.stdoutBuf ++ outConcat [ev] ∧
    s1.stderrBuf = s.stderrBuf ++ errConcat [ev] := by
  cases ev with
  | writeOut t =>
    simp only [bodyStep, writeOutStep, Option.some.injEq, Prod.mk.injEq] at h
    obtain ⟨rfl, rfl⟩ := h
    exact ⟨by simp [outConcat, string_append_empty],
      by simp [errConcat, string_append_empty]⟩
  | writeErr t =>
    simp only [bodyStep, writeErrStep, Option.some.injEq, Prod.mk.injEq] at h
    obtain ⟨rfl, rfl⟩ := h
    exact ⟨by simp [outConcat, string_append_empty],
      by simp [errConcat, string_append_empty]⟩
  | skip reason =>
    simp only [bodyStep, addSkipStep, runCalls, Option.map_eq_some'] at h
    obtain ⟨stk, hstk, heq⟩ := h
    obtain ⟨a2, ha2, rfl⟩ := hstk
    simp only [Prod.mk.injEq] at heq
    obtain ⟨rfl, rfl⟩ := heq
    exact ⟨by simp [outConcat, string_append_empty],
      by simp [errConcat, string_append_empty]⟩
  | error e =>
    cases hsp : splitlines e.valueStr with
    | nil => simp [bodyStep, addErrorStep, appendErrorDataCalls, hsp] at h
    | cons fl rest =>
      simp only [bodyStep, addErrorStep, appendErrorDataCalls, hsp, runCalls,
        Option.map_eq_some'] at h
      obtain ⟨stk, hstk, heq⟩ := h
      obtain ⟨a2, ha2, rfl⟩ := hstk
      simp only [Prod.mk.injEq] at heq
      obtain ⟨rfl, rfl⟩ := heq
      exact ⟨by simp [outConcat, string_append_empty],
        by simp [errConcat, string_append_empty]⟩
  | failure e =>
    cases hsp : splitlines e.valueStr with
    | nil => simp [bodyStep, addFailureStep, appendErrorDataCalls, hsp] at h
    | cons fl rest =>
      simp only [bodyStep, addFailureStep, appendErrorDataCalls, hsp, runCalls,
        Option.map_eq_some'] at h
      obtain ⟨stk, hstk, heq⟩ := h
      obtain ⟨a2, ha2, rfl⟩ := hstk
      simp only [Prod.mk.injEq] at heq
      obtain ⟨rfl, rfl⟩ := heq
      exact ⟨by simp [outConcat, string_append_empty],
        by simp [errConcat, string_append_empty]⟩
  | unexpectedSuccess =>
    simp only [bodyStep, addUnexpectedSuccessStep, appendErrorDataCalls,
      runCalls, Option.map_eq_some'] at h
    obtain ⟨stk, hstk, heq⟩ := h
    obtain ⟨a2, ha2, rfl⟩ := hstk
    simp only [Prod.mk.injEq] at heq
    obtain ⟨rfl, rfl⟩ := heq
    exact ⟨by simp [outConcat, string_append_empty],
      by simp [errConcat, string_append_empty]⟩

theorem outConcat_cons (ev : BodyEvent) (evs : List BodyEvent) :
    outConcat (ev :: evs) = outConcat [ev] ++ outConcat evs := by
  cases ev <;>
    simp [outConcat, string_empty_append, string_append_empty,
      string_append_assoc]

theorem errConcat_cons (ev : BodyEvent) (evs : List BodyEvent) :
    errConcat (ev :: evs) = errConcat [ev] ++ errConcat evs := by
  cases ev <;>
    simp [errConcat, string_empty_append, string_append_empty,
      string_append_assoc]

/-- A sequence of mid-test events extends the capture buffers by exactly
the concatenation of its writes. -/
theorem execBody_buffers {evs : List BodyEvent} {s s1 : LState}
    {cs : List BCall} (h : execBody s evs = some (s1, cs)) :
    s1.stdoutBuf = s.stdoutBuf ++ outConcat evs ∧
    s1.stderrBuf = s.stderrBuf ++ errConcat evs := by
  induction evs generalizing s cs with
  | nil =>
    simp only [execBody, Option.some.injEq, Prod.mk.injEq] at h
    obtain ⟨rfl, rfl⟩ := h
    exact ⟨by simp [outConcat, string_append_empty],
      by simp [errConcat, string_append_empty]⟩
  | cons ev evs ih =>
    cases h1 : bodyStep s ev with
    | none => simp [execBody, h1] at h
    | some p =>
      obtain ⟨sm, cm⟩ := p
      cases h2 : execBody sm evs with
      | none => simp [execBody, h1, h2] at h
      | some q =>
        obtain ⟨sq, cq⟩ := q
        simp only [execBody, h1, h2, Option.some.injEq, Prod.mk.injEq] at h
        obtain ⟨rfl, rfl⟩ := h
        have hb := bodyStep_buffers h1
        have hq := ih h2
        constructor
        · rw [hq.1, hb.1, string_append_assoc, ← outConcat_cons]
        · rw [hq.2, hb.2, string_append_assoc, ← errConcat_cons]

/-- Claim C10: construction unconditionally enables per-test output
buffering regardless of the `stream`/`descriptions`/`verbosity` arguments
(`buffer = True`); at `stopTest` the buffer contents are read before the
superclass resets them, so the capture attached to the testcase is exactly
the text written during that test, and the buffers are empty afterwards, so
nothing leaks into a later testcase. -/
theorem buffering_captures_exactly_this_test {α β γ : Type} (a : α) (b : β)
    (v : γ) (d : OutTarget) (sfx : Option String) (ts : String) (s : LState)
    (evs : List BodyEvent) (s1 s2 : LState) (cs1 cs2 : List BCall)
    (h0 : s.stdoutBuf = "") (h0e : s.stderrBuf = "")
    (hb : execBody s evs = some (s1, cs1))
    (hst : stopTestStep s1 = some (s2, cs2)) :
    (XMLTestResult_init a b v d sfx ts).buffer = true ∧
    s1.stdoutBuf = outConcat evs ∧ s1.stderrBuf = errConcat evs ∧
    s2.stdoutBuf = "" ∧ s2.stderrBuf = "" ∧
    cs2 = (if outConcat evs ≠ "" then
        [BCall.append_cdata_section "system-out" (outConcat evs)] else []) ++
      (if errConcat evs ≠ "" then
        [BCall.append_cdata_section "system-err" (errConcat evs)] else []) ++
      [BCall.increment_counter "tests", BCall.end_context] := by
  have hbuf := execBody_buffers hb
  have h1o : s1.stdoutBuf = outConcat evs := by
    rw [hbuf.1, h0, string_empty_append]
  have h1e : s1.stderrBuf = errConcat evs := by
    rw [hbuf.2, h0e, string_empty_append]
  simp only [stopTestStep, Option.map_eq_some'] at hst
  obtain ⟨stk, hstk, heq⟩ := hst
  simp only [Option.some.injEq, Prod.mk.injEq] at heq
  obtain ⟨rfl, rfl⟩ := heq
  refine ⟨rfl, h1o, h1e, rfl, rfl, ?_⟩
  rw [h1o, h1e]

/-- Witness for C10 at a concrete input: one test writing to both streams. -/
theorem buffering_captures_exactly_this_test_witness :
    (XMLTestResult_init () () () OutTarget.stream none
      "20240101T000000").buffer = true ∧
    (⟨[⟨"testcase", "test_one", [], []⟩,
       ⟨"testsuite", "pkg.FooTest", [], []⟩,
       ⟨"testsuites", "TestSuites", [], []⟩],
      some "pkg.FooTest", "hello\n", "oops", true, OutTarget.stream,
      "20240101T000000"⟩ : LState).stdoutBuf =
      outConcat [BodyEvent.writeOut "hello\n", BodyEvent.writeErr "oops"] ∧
    (⟨[⟨"testcase", "test_one", [], []⟩,
       ⟨"testsuite", "pkg.FooTest", [], []⟩,
       ⟨"testsuites", "TestSuites", [], []⟩],
      some "pkg.FooTest", "hello\n", "oops", true, OutTarget.stream,
      "20240101T000000"⟩ : LState).stderrBuf =
      errConcat [BodyEvent.writeOut "hello\n", BodyEvent.writeErr "oops"] ∧
    (⟨[⟨"testsuite", "pkg.FooTest", [("tests", 1)],
        [XTree.elem "testcase" "test_one" [("tests", 1)]
          [XTree.leaf "system-out" (some "hello\n") [],
           XTree.leaf "system-err" (some "oops") []]]⟩,
       ⟨"testsuites", "TestSuites", [("tests", 1)], []⟩],
      some "pkg.FooTest", "", "", true, OutTarget.stream,
      "20240101T000000"⟩ : LState).stdoutBuf = "" ∧
    (⟨[⟨"testsuite", "pkg.FooTest", [("tests", 1)],
        [XTree.elem "testcase" "test_one" [("tests", 1)]
          [XTree.leaf "system-out" (some "hello\n") [],
           XTree.leaf "system-err" (some "oops") []]]⟩,
       ⟨"testsuites", "TestSuites", [("tests", 1)], []⟩],
      some "pkg.FooTest", "", "", true, OutTarget.stream,
      "20240101T000000"⟩ : LState).stderrBuf = "" ∧
    ([BCall.append_cdata_section "system-out" "hello\n",
      BCall.append_cdata_section "system-err" "oops",
      BCall.increment_counter "tests", BCall.end_context] : List BCall) =
      (if outConcat [BodyEvent.writeOut "hello\n",
          BodyEvent.writeErr "oops"] ≠ "" then
        [BCall.append_cdata_section "system-out"
          (outConcat [BodyEvent.writeOut "hello\n",
            BodyEvent.writeErr "oops"])] else []) ++
      (if errConcat [BodyEvent.writeOut "hello\n",
          BodyEvent.writeErr "oops"] ≠ "" then
        [BCall.append_cdata_section "system-err"
          (errConcat [BodyEvent.writeOut "hello\n",
            BodyEvent.writeErr "oops"])] else []) ++
      [BCall.increment_counter "tests", BCall.end_context] :=
  buffering_captures_exactly_this_test () () () OutTarget.stream none
    "20240101T000000"
    (⟨[⟨"testcase", "test_one", [], []⟩,
       ⟨"testsuite", "pkg.FooTest", [], []⟩,
       ⟨"testsuites", "TestSuites", [], []⟩],
      some "pkg.FooTest", "", "", true, OutTarget.stream,
      "20240101T000000"⟩ : LState)
    [BodyEvent.writeOut "hello\n", BodyEvent.writeErr "oops"]
    _ _ _ _ rfl rfl rfl rfl

/-- Claim C7: when the configured output target is a directory path string,
the report is written to `<dir><os.sep>TESTS-TestSuites-<suffix>.xml`, with
the directory created first exactly when it does not exist, where the
suffix is the caller-supplied template with its single placeholder
substituted by the construction-time timestamp (the raw timestamp when the
template is omitted); when the target is an already-open stream the
document is written directly to it with no file or directory management. -/
theorem report_output_target {α β γ : Type} (a : α) (b : β) (v : γ)
    (p tpl pre post ts : String)
    (hpre : ∀ ch ∈ pre.data, ch ≠ lcurly)
    (hpost : ∀ ch ∈ post.data, ch ≠ lcurly)
    (htpl : tpl.data = pre.data ++ lcurly :: '0' :: rcurly :: post.data) :
    (XMLTestResult_init a b v (OutTarget.path p) (some tpl) ts).out_suffix =
      pre ++ ts ++ post ∧
    (XMLTestResult_init a b v (OutTarget.path p) none ts).out_suffix = ts ∧
    (∀ (s : LState) (dirExists : Bool) (doc : XTree),
      s.out_dir = OutTarget.path p → finishResult s.stack = some doc →
      generate_report s dirExists = some (WriteEffect.toFile
        (p ++ osSep ++ "TESTS-TestSuites-" ++ s.out_suffix ++ ".xml")
        (!dirExists) doc)) ∧
    (∀ (s : LState) (dirExists : Bool) (doc : XTree),
      s.out_dir = OutTarget.stream → finishResult s.stack = some doc →
      generate_report s dirExists = some (WriteEffect.toStream doc)) := by
  have htne : tpl ≠ "" := by
    intro h
    rw [h] at htpl
    simp [data_empty] at htpl
  refine ⟨?_, rfl, ?_, ?_⟩
  · show (if tpl ≠ "" then pyFormat1 tpl ts else ts) = pre ++ ts ++ post
    rw [if_pos htne]
    exact pyFormat1_single_placeholder tpl pre post ts hpre hpost htpl
  · intro s dE doc h1 h2
    simp [generate_report, h2, h1, report_filename]
  · intro s dE doc h1 h2
    simp [generate_report, h2, h1]

/-- Witness for C7 at concrete inputs: template `run-\x7b0\x7d`, timestamp
`20240101T010203`, directory `reports` (absent, hence created), and a
pre-opened stream target. -/
theorem report_output_target_witness :
    (XMLTestResult_init () () () (OutTarget.path "reports")
      (some "run-\x7b0\x7d") "20240101T010203").out_suffix =
      "run-" ++ "20240101T010203" ++ "" ∧
    (XMLTestResult_init () () () (OutTarget.path "reports") none
      "20240101T010203").out_suffix = "20240101T010203" ∧
    generate_report
      (⟨[⟨"testsuites", "TestSuites", [], []⟩], none, "", "", true,
        OutTarget.path "reports", "run-20240101T010203"⟩ : LState) false =
      some (WriteEffect.toFile
        ("reports" ++ osSep ++ "TESTS-TestSuites-" ++
          (⟨[⟨"testsuites", "TestSuites", [], []⟩], none, "", "", true,
            OutTarget.path "reports",
            "run-20240101T010203"⟩ : LState).out_suffix ++ ".xml")
        (!false) (XTree.elem "testsuites" "TestSuites" [] [])) ∧
    generate_report
      (⟨[⟨"testsuites", "TestSuites", [], []⟩], none, "", "", true,
        OutTarget.stream, "20240101T010203"⟩ : LState) true =
      some (WriteEffect.toStream (XTree.elem "testsuites" "TestSuites" [] [])) :=
  have h := report_output_target () () () "reports" "run-\x7b0\x7d" "run-" ""
    "20240101T010203" (by decide) (by decide) (by decide)
  ⟨h.1, h.2.1, h.2.2.1 _ false _ rfl rfl, h.2.2.2 _ true _ rfl rfl⟩

end XmlRunner
